import Mathlib

/-!
Verification of `rep0st/service/media_service.py` (media decoding subsystem).

The Python source is shallowly embedded: byte streams are `List Nat`
(one entry per byte, the empty list marking end of stream — a `read` past
the end returns the empty byte string, as Python's `read` does on an
exhausted pipe), Python exceptions are an explicit error type, and the
external collaborators (the spawned ffmpeg process, OpenCV's `imdecode`
and `cvtColor`, the filesystem) enter as explicit parameters or oracle
outcomes.  Observable actions (spawning the process, probing, waiting,
logging) are recorded in explicit event traces.
-/

/-- Python errors raised (directly or indirectly) by the code under
verification.  `imageDecode` is the source's `ImageDecodeException`
(the spec's `DecodeError`), `noMediaFound` is `NoMediaFoundException`
(the spec's `MediaNotFoundError`), `notImplemented` is the built-in
`NotImplementedError` (the spec's `UnsupportedTypeError`).  The remaining
constructors are Python built-in exceptions that the code can let escape:
`KeyError`, `ValueError`, `TypeError`, `AttributeError`,
`UnicodeDecodeError` and `subprocess.TimeoutExpired`. -/
inductive PyErr where
  | imageDecode (msg : String)
  | noMediaFound
  | notImplemented
  | keyError
  | valueError
  | typeError
  | attributeError
  | unicodeDecodeError
  | timeoutExpired
  | osError
deriving DecidableEq, Repr

/-- Byte code of the newline character `b'\n'`. -/
def newlineByte : Nat := 10

/-- The bytes considered whitespace by Python's `str.strip()` on ASCII
text: space, tab, newline, carriage return, vertical tab, form feed. -/
def isSpaceByte (b : Nat) : Bool :=
  b = 32 || b = 9 || b = 10 || b = 13 || b = 11 || b = 12

/-- Python's `str.strip()` on an ASCII byte sequence: drop leading and
trailing whitespace. -/
def pyStrip (l : List Nat) : List Nat :=
  ((l.dropWhile isSpaceByte).reverse.dropWhile isSpaceByte).reverse

/-- Python's `int(x)` on the decimal digit strings that appear in ppm
headers: a nonempty, all-digit string denotes its base-10 value; anything
else raises `ValueError` (modelled as `none`).  (Python's `int()` also
accepts signs and surrounding whitespace; those forms never reach this
parser on the stripped header lines the code feeds it, and no claim
exercises them.) -/
def parseNat (l : List Nat) : Option Nat :=
  if l = [] then none
  else if l.all (fun b => decide (48 ≤ b) && decide (b ≤ 57)) then
    some (l.foldl (fun a b => 10 * a + (b - 48)) 0)
  else none

/-- Python's `str.split(' ')` on an ASCII byte sequence: split at every
single space byte, keeping empty fragments (so two adjacent spaces yield
an empty fragment), and `[]` splits to `[[]]` as `''.split(' ') == ['']`. -/
def splitSpace : List Nat → List (List Nat)
  | [] => [[]]
  | 32 :: rest => [] :: splitSpace rest
  | b :: rest =>
    match splitSpace rest with
    | [] => [[b]]
    | g :: gs => (b :: g) :: gs

/-- Line 128 of the source: `width, height = [int(x) for x in line.split(' ')]`.
Returns the pair exactly when the line splits into two parseable integers;
every other shape (an unparseable fragment raising `ValueError` from
`int`, or a fragment count other than two raising `ValueError` from the
unpacking) is `none`, which the caller turns into `ValueError`. -/
def parseDims (l : List Nat) : Option (Nat × Nat) :=
  match (splitSpace l).map parseNat with
  | [some w, some h] => some (w, h)
  | _ => none

/-- The byte-by-byte loop of `_readline` (source lines 23-29), with the
current character `c` as `Option Nat` (`none` models `b''`, the empty
read at end of stream) and explicit fuel: one unit of fuel per loop
iteration.  `none` as overall result means the fuel ran out; because at
end of stream `read(1)` returns `b''` forever and `b'' != b'\n'` always
holds, the Python loop runs forever there and the function returns `none`
for every fuel value. -/
def rlLoop (fuel : Nat) (c : Option Nat) (s : List Nat) (out : List Nat) :
    Option (List Nat × List Nat) :=
  if c = some newlineByte then some (out.reverse, s)
  else
    match fuel with
    | 0 => none
    | fuel + 1 =>
      match c, s with
      | some b, _ => rlLoop fuel s.head? s.tail (b :: out)
      | none, _ => rlLoop fuel s.head? s.tail out

/-- Whether every byte decodes under `bytes.decode('ascii')`. -/
def allAscii (l : List Nat) : Bool := l.all (fun b => decide (b < 128))

/-- Shallow embedding of `_readline` (source lines 22-30).  Result:
`none` when the Python call does not return (the stream ends mid-line,
so the read loop spins on empty reads forever); `some (.error e)` when
it raises (`UnicodeDecodeError` from `decode('ascii')` on a non-ASCII
byte); `some (.ok (none, s))` when the stream was already at end of
stream (`return None`); `some (.ok (some line, rest))` for a read line,
whitespace-stripped, with `rest` the unconsumed stream.  The internal
fuel `s.length + 1` exceeds any possible number of productive loop
iterations, so fuel exhaustion coincides exactly with the Python
nontermination (proved in `rlLoop_eq_none_of_no_newline` and
`rlLoop_ne_none`). -/
def pyReadline (s : List Nat) :
    Option (Except PyErr (Option (List Nat) × List Nat)) :=
  match s with
  | [] => some (.ok (none, []))
  | c :: rest =>
    match rlLoop (s.length + 1) (some c) rest [] with
    | none => none
    | some (line, s1) =>
      if allAscii line then some (.ok (some (pyStrip line), s1))
      else some (.error .unicodeDecodeError)

/-- The exact format token the code accepts: `'P6'`. -/
def pSix : List Nat := [80, 54]

/-- Python truthiness test `not format` on the result of `_readline`:
`None` and the empty string are falsy, every other string truthy. -/
def pyFalsy : Option (List Nat) → Bool
  | none => true
  | some [] => true
  | some (_ :: _) => false

/-- One decoded video frame: the shape `[height, width, 3]` given to
`reshape` and the pixel bytes after `cvtColor(., COLOR_RGB2BGR)`. -/
structure Frame where
  height : Nat
  width : Nat
  data : List Nat
deriving DecidableEq, Repr

/-- OpenCV's `cvtColor(frame, COLOR_RGB2BGR)` on the flattened row-major
pixel bytes: swap the first and third sample of every pixel.  `cvtColor`
is an external library call; this is its documented semantics for a
3-channel byte image. -/
def rgb2bgr : List Nat → List Nat
  | r :: g :: b :: rest => b :: g :: r :: rgb2bgr rest
  | l => l

/-- Message of the `ImageDecodeException` for a non-`P6` format token
(source line 125). -/
def unsupportedFormatMsg : String :=
  "frames returned by ffmpeg cannot be decoded due to an unsupported format"

/-- Message of the `ImageDecodeException` for a wrong sample depth
(source line 131). -/
def maxValMsg (mv : Nat) : String := s!"max_value has to be 255, it is {mv}"

/-- Message of the `ImageDecodeException` for an empty payload read
(source line 136). -/
def frameReadMsg : String := "could not read the full frame"

/-- Outcome of one iteration of the `while True` loop of
`decode_video_from_file` (source lines 120-140). -/
inductive RecordStep where
  | diverge
  | fail (e : PyErr)
  | endOfStream
  | frame (fr : Frame) (rest : List Nat)
deriving Repr

/-- One iteration of the record loop (source lines 120-140), reading from
the process output stream `s`:
  * read the format line; a falsy line (`None` at end of stream, or a
    line that strips to empty) breaks the loop (`endOfStream`); a
    non-`'P6'` line raises;
  * read and split the dimension line (`None` raises `AttributeError`
    from `.split`, an unparseable or wrongly-shaped line raises
    `ValueError`);
  * read the sample-depth line (`None` raises `TypeError` from `int`,
    unparseable raises `ValueError`, a value other than 255 raises);
  * `read(width*height*3)` payload bytes (a buffered read returns at
    most that many, fewer only at end of stream): an empty read raises
    the `ImageDecodeException` of line 136, and `reshape` on any other
    length mismatch raises `ValueError`; otherwise the frame is color
    converted and emitted.
`diverge` records that one of the `_readline` calls never returned. -/
def parseRecord (s : List Nat) : RecordStep :=
  match pyReadline s with
  | none => .diverge
  | some (.error e) => .fail e
  | some (.ok (format, s1)) =>
    if pyFalsy format then .endOfStream
    else if format ≠ some pSix then .fail (.imageDecode unsupportedFormatMsg)
    else
      match pyReadline s1 with
      | none => .diverge
      | some (.error e) => .fail e
      | some (.ok (none, _)) => .fail .attributeError
      | some (.ok (some dimsLine, s2)) =>
        match parseDims dimsLine with
        | none => .fail .valueError
        | some (w, h) =>
          match pyReadline s2 with
          | none => .diverge
          | some (.error e) => .fail e
          | some (.ok (none, _)) => .fail .typeError
          | some (.ok (some maxLine, s3)) =>
            match parseNat maxLine with
            | none => .fail .valueError
            | some mv =>
              if mv ≠ 255 then .fail (.imageDecode (maxValMsg mv))
              else
                if s3.take (w * h * 3) = [] then .fail (.imageDecode frameReadMsg)
                else if (s3.take (w * h * 3)).length ≠ h * w * 3 then .fail .valueError
                else .frame ⟨h, w, rgb2bgr (s3.take (w * h * 3))⟩ (s3.drop (w * h * 3))

/-- The `while True` frame loop (source lines 120-140), fuel-indexed:
one unit of fuel per iteration, `none` for both fuel exhaustion and a
diverging `_readline`.  `frameLoopF_irrel` shows the result does not
depend on the fuel once it exceeds the stream length, so fuel exhaustion
never surfaces through `frameLoop`. -/
def frameLoopF : Nat → List Nat → Option (Except PyErr (List Frame))
  | 0, _ => none
  | fuel + 1, s =>
    match parseRecord s with
    | .diverge => none
    | .fail e => some (.error e)
    | .endOfStream => some (.ok [])
    | .frame fr rest =>
      match frameLoopF fuel rest with
      | none => none
      | some (.error e) => some (.error e)
      | some (.ok fs) => some (.ok (fr :: fs))

/-- The frame loop of `decode_video_from_file` on the full process
output stream: total, with `none` meaning the Python loop never
terminates (a `_readline` hitting end of stream mid-line). -/
def frameLoop (s : List Nat) : Option (Except PyErr (List Frame)) :=
  frameLoopF (s.length + 1) s

/-- A well-formed pixel-map record as written by the external process:
the claim's "well-formed" conditions on the three header lines and the
payload, with the dimension and sample-depth lines kept abstract (any
newline-free ASCII lines parsing to `(width, height)` and `255`). -/
structure PPMRecord where
  width : Nat
  height : Nat
  dimsLine : List Nat
  maxLine : List Nat
  payload : List Nat

/-- Well-formedness of a record: header lines are newline-free ASCII and
parse to the declared positive dimensions and sample depth 255, and the
payload holds exactly `width*height*3` bytes. -/
def PPMRecord.WF (r : PPMRecord) : Prop :=
  newlineByte ∉ r.dimsLine ∧ allAscii r.dimsLine = true ∧
  parseDims (pyStrip r.dimsLine) = some (r.width, r.height) ∧
  newlineByte ∉ r.maxLine ∧ allAscii r.maxLine = true ∧
  parseNat (pyStrip r.maxLine) = some 255 ∧
  0 < r.width ∧ 0 < r.height ∧ r.payload.length = r.width * r.height * 3

/-- The wire form of a record: `P6`, newline, dimension line, newline,
sample-depth line, newline, payload bytes. -/
def PPMRecord.enc (r : PPMRecord) : List Nat :=
  pSix ++ newlineByte ::
    (r.dimsLine ++ newlineByte :: (r.maxLine ++ newlineByte :: r.payload))

/-- The frame the decoder emits for a record: shape `height x width x 3`,
data the payload with red and blue swapped. -/
def PPMRecord.toFrame (r : PPMRecord) : Frame :=
  ⟨r.height, r.width, rgb2bgr r.payload⟩

/-- The two configuration flags `decode_video_from_file` reads
(`rep0st/config/rep0st_video_config.py`): `rep0st_video_max_duration`
(seconds) and `rep0st_video_max_upload_size_mb` (megabytes), both
integer flags. -/
structure Limits where
  maxDuration : Nat
  maxUploadSizeMb : Nat
deriving DecidableEq, Repr

/-- Source line 114: `upload_size_limit_bytes = ... * 1024 * 1024`. -/
def Limits.uploadCapBytes (L : Limits) : Nat := L.maxUploadSizeMb * 1024 * 1024

/-- The flag defaults declared in `rep0st_video_config.py`: 300 seconds,
200 MB. -/
def defaultLimits : Limits := ⟨300, 200⟩

/-- What `probe['format']['duration']` and `float(...)` (source line 102)
find when the probe call itself returned: the key chain can be `missing`
(raises `KeyError`), the value `unparsable` by `float` (raises
`ValueError`), or an actual duration (floats are modelled as rationals;
the claims compare durations only, never exercise rounding). -/
inductive DurationField where
  | missing
  | unparsable
  | val (d : ℚ)
deriving DecidableEq

/-- Outcome of the external `ffmpeg.probe(file)` call (source line 101):
it raises `ffmpeg.Error` (the only class the `except` on line 107
catches), raises some other exception such as `OSError`, or returns a
dictionary summarised by its duration field. -/
inductive ProbeOutcome where
  | ffmpegError
  | otherError
  | ok (df : DurationField)
deriving DecidableEq

/-- Outcome of `proc.wait(timeout=1)` (source line 142): the process
exit status, or `subprocess.TimeoutExpired`. -/
inductive WaitOutcome where
  | exited (rc : Int)
  | timedOut
deriving DecidableEq

/-- Observable actions of `decode_video_from_file`, in program order:
`spawn` is the `subprocess.Popen` call on line 93, `probeCall` the
`ffmpeg.probe` on line 101, `logWarning` the `log.warning` on line 108,
`waitCall t` the `proc.wait(timeout=t)` on line 142. -/
inductive Event where
  | spawn
  | probeCall
  | logWarning
  | waitCall (timeoutSeconds : Nat)
deriving DecidableEq, Repr

/-- Result of a full run of `decode_video_from_file`: the trace of
observable actions and the final outcome — `none` when the run never
terminates (`_readline` spinning at end of stream), `some (.error e)`
when exception `e` propagates to the caller, `some (.ok frames)` for a
clean finish having yielded `frames`. -/
structure VideoResult where
  events : List Event
  result : Option (Except PyErr (List Frame))

/-- Message of the upload-size `ImageDecodeException` (source lines 116-118). -/
def sizeMsg (fileSize cap : Nat) : String :=
  s!"Video upload size {fileSize} exceeds maximum allowed size {cap}"

/-- Message of the duration `ImageDecodeException` (source lines 104-106). -/
def durationMsg (d : ℚ) (limit : Nat) : String :=
  s!"Video duration {d} exceeds maximum allowed duration {limit}"

/-- Source lines 110-146: everything after the probe block.  The size
check (`file_size > upload_size_limit_bytes`) raises; then the record
loop runs on the process output `stream`; on a clean break the process
is waited on with `timeout=1` and a nonzero exit status raises an
`ImageDecodeException` carrying the decoded standard-error text. -/
def afterProbe (L : Limits) (fileSize : Nat) (stream : List Nat)
    (w : WaitOutcome) (stderrText : String) : VideoResult :=
  if L.uploadCapBytes < fileSize then
    ⟨[], some (.error (.imageDecode (sizeMsg fileSize L.uploadCapBytes)))⟩
  else
    match frameLoop stream with
    | none => ⟨[], none⟩
    | some (.error e) => ⟨[], some (.error e)⟩
    | some (.ok frames) =>
      match w with
      | .timedOut => ⟨[.waitCall 1], some (.error .timeoutExpired)⟩
      | .exited rc =>
        if rc = 0 then ⟨[.waitCall 1], some (.ok frames)⟩
        else ⟨[.waitCall 1], some (.error (.imageDecode stderrText))⟩

/-- Shallow embedding of `decode_video_from_file` (source lines 76-146).
The externals are parameters: `fileSize` is what `seek`/`tell` report,
`pr` the probe outcome, `stream` the process's standard output bytes,
`w` the wait outcome, `stderrText` the decoded standard-error text.  The
command is built and the process spawned first (lines 82-97); the probe
block follows (lines 100-108), where only `ffmpeg.Error` is caught and
logged, a duration above the limit raises `ImageDecodeException`, and
any other failure (`KeyError`/`ValueError` from the duration field, or
a non-`ffmpeg.Error` probe exception) propagates; then `afterProbe`. -/
def decode_video_from_file (L : Limits) (fileSize : Nat) (pr : ProbeOutcome)
    (stream : List Nat) (w : WaitOutcome) (stderrText : String) : VideoResult :=
  match pr with
  | .ffmpegError =>
    let r := afterProbe L fileSize stream w stderrText
    ⟨.spawn :: .probeCall :: .logWarning :: r.events, r.result⟩
  | .otherError => ⟨[.spawn, .probeCall], some (.error .osError)⟩
  | .ok .missing => ⟨[.spawn, .probeCall], some (.error .keyError)⟩
  | .ok .unparsable => ⟨[.spawn, .probeCall], some (.error .valueError)⟩
  | .ok (.val d) =>
    if (L.maxDuration : ℚ) < d then
      ⟨[.spawn, .probeCall], some (.error (.imageDecode (durationMsg d L.maxDuration)))⟩
    else
      let r := afterProbe L fileSize stream w stderrText
      ⟨.spawn :: .probeCall :: r.events, r.result⟩

/-- A probe outcome that does not itself abort the decode: the caught
`ffmpeg.Error`, or an actual duration within the limit. -/
def probeBenign (L : Limits) (pr : ProbeOutcome) : Prop :=
  pr = .ffmpegError ∨ ∃ d : ℚ, pr = .ok (.val d) ∧ ¬ ((L.maxDuration : ℚ) < d)

/-- Message of the `ImageDecodeException` raised by `_decode_image`
(source lines 56 and 59). -/
def imageDecodeMsg : String := "Could not decode image"

/-- Outcome of the external OpenCV call `imdecode(data, IMREAD_COLOR)`
(source line 54) on a given byte buffer, modelled as an oracle: a
decoded image of some shape, the `None` result for undecodable input,
or a raised exception. -/
inductive ImdecodeOutcome where
  | img (height width : Nat)
  | noResult
  | raises
deriving DecidableEq

/-- Shallow embedding of `DecodeMediaService._decode_image` (source
lines 52-59): return the decoded image; if `imdecode` returned `None`,
raise `ImageDecodeException("Could not decode image")` — which the bare
`except:` catches and replaces with an identical exception, the same one
it raises for any exception thrown by `imdecode` itself.  The operation
is pure: no events besides the single decode attempt. -/
def _decode_image : ImdecodeOutcome → Except PyErr (Nat × Nat)
  | .img h w => .ok (h, w)
  | .noResult => .error (.imageDecode imageDecodeMsg)
  | .raises => .error (.imageDecode imageDecodeMsg)

/-- Modelled from the spec: the post media-type enumeration lives in
`rep0st/db`, which is not under `src/`.  The spec names `IMAGE` and
`VIDEO` (the two types `ReadMediaService.__init__` registers decoders
for, source lines 176-179) and provides for posts "whose media type has
no registered decoder"; `animated` stands for such an unregistered
type. -/
inductive PostType where
  | image
  | animated
  | video
deriving DecidableEq, Repr

/-- Modelled from the spec: the `Post` record of `rep0st/db/post.py` is
not under `src/`; these are the fields `get_images` reads (`post.id`,
`post.image`, `post.fullsize`, `post.type`), per the spec's
`MediaReference` (primary file path required, full-size path optional).
`fullsize` is an optional string; Python's truthiness test on it treats
both `None` and the empty string as "not declared". -/
structure Post where
  id : Nat
  image : String
  fullsize : Option String
  type : PostType

/-- The decoder registry built in `ReadMediaService.__init__` (source
lines 176-179): image and video have decoders, nothing else does. -/
def registeredDecoder : PostType → Bool
  | .image => true
  | .video => true
  | .animated => false

/-- Filesystem oracle for `get_images`: whether `Path.is_file` holds of
a path (source line 186) and whether `Path.open("rb")` succeeds (source
line 199).  Paths are component lists under the media root. -/
structure FileSystem where
  isFile : List String → Bool
  openOk : List String → Bool

/-- Observable actions of `ReadMediaService.get_images`: the
`is_file()` stat on the full-size path, the `log.debug` on line 191,
the `log.error` on line 187, a warning-level log (never emitted by this
function — present so its absence is statable), and the `open("rb")` on
line 199. -/
inductive RMEvent where
  | isFileCheck (p : List String)
  | logDebug
  | logWarning
  | logError
  | openFile (p : List String)
deriving DecidableEq, Repr

/-- Whether an event is an actual file open. -/
def RMEvent.isOpen : RMEvent → Bool
  | .openFile _ => true
  | _ => false

/-- Shallow embedding of `ReadMediaService.get_images` (source lines
181-205): build the primary path `media_dir / post.image`; if
`post.fullsize` is truthy, stat `media_dir / 'full' / post.fullsize` —
if absent log at error level and keep the primary path, if present log
at debug level and switch to it; if no decoder is registered for
`post.type` raise `NotImplementedError`; otherwise open the chosen file
(an `IOError`/`OSError` is wrapped as `NoMediaFoundException`) and
delegate to the registered decoder.  The result records the trace and
either the error or the path handed to the decoder. -/
def get_images (mediaDir : List String) (fs : FileSystem) (post : Post) :
    List RMEvent × Except PyErr (List String) :=
  let primary := mediaDir ++ [post.image]
  let sel :=
    match post.fullsize with
    | none => ([], primary)
    | some s =>
      if s = "" then ([], primary)
      else
        let fullsizeFile := mediaDir ++ ["full", s]
        if fs.isFile fullsizeFile then
          ([RMEvent.isFileCheck fullsizeFile, RMEvent.logDebug], fullsizeFile)
        else
          ([RMEvent.isFileCheck fullsizeFile, RMEvent.logError], primary)
  if registeredDecoder post.type = false then
    (sel.1, .error .notImplemented)
  else if fs.openOk sel.2 then
    (sel.1 ++ [RMEvent.openFile sel.2], .ok sel.2)
  else
    (sel.1 ++ [RMEvent.openFile sel.2], .error .noMediaFound)

/-- Substring containment on strings, via character lists. -/
def strContains (hay needle : String) : Prop :=
  ∃ l r : List Char, hay.data = l ++ needle.data ++ r

/-- The Python `_readline` call on stream `s` runs forever: the stream
is nonempty (so the initial read returns a byte and the loop is entered)
and the loop body, started on that byte, exhausts every fuel bound. -/
def readlineDiverges (s : List Nat) : Prop :=
  s ≠ [] ∧ ∀ fuel : Nat, rlLoop fuel s.head? s.tail [] = none

/-- Whether an error is an `ImageDecodeException` (the spec's `DecodeError`). -/
def PyErr.isImageDecode : PyErr → Bool
  | .imageDecode _ => true
  | _ => false

theorem rlLoop_newline (fuel : Nat) (s out : List Nat) :
    rlLoop fuel (some newlineByte) s out = some (out.reverse, s) := by
  rw [rlLoop.eq_def]
  simp

theorem rlLoop_zero (c : Option Nat) (s out : List Nat)
    (h : c ≠ some newlineByte) : rlLoop 0 c s out = none := by
  rw [rlLoop.eq_def]
  simp [h]

theorem rlLoop_cons (fuel : Nat) (b : Nat) (s out : List Nat)
    (h : b ≠ newlineByte) :
    rlLoop (fuel + 1) (some b) s out = rlLoop fuel s.head? s.tail (b :: out) := by
  rw [rlLoop.eq_def]
  simp [h]

theorem rlLoop_empty (fuel : Nat) (s out : List Nat) :
    rlLoop (fuel + 1) none s out = rlLoop fuel s.head? s.tail out := by
  rw [rlLoop.eq_def]
  simp

/-- A stream containing no newline keeps its head and tail newline-free. -/
theorem no_newline_head_tail (s : List Nat) (hs : newlineByte ∉ s) :
    s.head? ≠ some newlineByte ∧ newlineByte ∉ s.tail := by
  cases s with
  | nil => simp
  | cons x xs =>
    refine ⟨fun h => ?_, fun hm => hs (List.mem_cons_of_mem _ hm)⟩
    simp only [List.head?, Option.some.injEq] at h
    exact hs (by simp [h])

/-- A stream segment with no newline in it (current char included) makes
the read loop run out of any amount of fuel: the model of `_readline`
running forever. -/
theorem rlLoop_eq_none_of_no_newline (fuel : Nat) (c : Option Nat)
    (s out : List Nat) (hc : c ≠ some newlineByte) (hs : newlineByte ∉ s) :
    rlLoop fuel c s out = none := by
  induction fuel generalizing c s out with
  | zero => exact rlLoop_zero _ _ _ hc
  | succ f ih =>
    match c with
    | some b =>
      have hb : b ≠ newlineByte := by intro h; exact hc (by rw [h])
      rw [rlLoop_cons _ _ _ _ hb]
      exact ih _ _ _ (no_newline_head_tail s hs).1 (no_newline_head_tail s hs).2
    | none =>
      rw [rlLoop_empty]
      exact ih _ _ _ (no_newline_head_tail s hs).1 (no_newline_head_tail s hs).2

/-- With enough fuel, the loop finds the first newline: reading
`pre ++ newline :: rest` starting before `pre` yields the accumulated
prefix and leaves `rest`. -/
theorem rlLoop_finds (pre : List Nat) :
    ∀ (fuel : Nat) (rest out : List Nat), newlineByte ∉ pre → pre.length ≤ fuel →
      rlLoop fuel ((pre ++ newlineByte :: rest).head?)
        ((pre ++ newlineByte :: rest).tail) out = some (out.reverse ++ pre, rest) := by
  induction pre with
  | nil =>
    intro fuel rest out _ _
    simpa using rlLoop_newline fuel rest out
  | cons b pre ih =>
    intro fuel rest out hnl hlen
    simp only [List.length_cons] at hlen
    obtain ⟨f, rfl⟩ : ∃ f, fuel = f + 1 := ⟨fuel - 1, by omega⟩
    have hb : b ≠ newlineByte := fun h => hnl (by simp [h])
    simp only [List.cons_append, List.head?, List.tail]
    rw [rlLoop_cons _ _ _ _ hb]
    have := ih f rest (b :: out) (fun h => hnl (List.mem_cons_of_mem _ h)) (by omega)
    rw [this]
    simp

/-- A successful read consumes at least the current character: the
remaining stream is strictly shorter than `c :: s` — stated as: remaining
length is at most `s`'s length. -/
theorem rlLoop_rest_le (fuel : Nat) :
    ∀ (c : Option Nat) (s out line rest : List Nat),
      rlLoop fuel c s out = some (line, rest) → rest.length ≤ s.length := by
  induction fuel with
  | zero =>
    intro c s out line rest h
    by_cases hc : c = some newlineByte
    · subst hc; rw [rlLoop_newline] at h
      cases h; simp
    · rw [rlLoop_zero _ _ _ hc] at h; cases h
  | succ f ih =>
    intro c s out line rest h
    by_cases hc : c = some newlineByte
    · subst hc; rw [rlLoop_newline] at h
      cases h; simp
    · match c with
      | some b =>
        have hb : b ≠ newlineByte := fun hh => hc (by rw [hh])
        rw [rlLoop_cons _ _ _ _ hb] at h
        have := ih _ _ _ _ _ h
        calc rest.length ≤ s.tail.length := this
          _ ≤ s.length := by cases s <;> simp
      | none =>
        rw [rlLoop_empty] at h
        have := ih _ _ _ _ _ h
        calc rest.length ≤ s.tail.length := this
          _ ≤ s.length := by cases s <;> simp

theorem pyReadline_nil : pyReadline [] = some (.ok (none, [])) := rfl

/-- Reading a stream that starts with an ASCII, newline-free prefix
followed by a newline returns that prefix stripped, leaving the suffix. -/
theorem pyReadline_line (pre rest : List Nat) (h10 : newlineByte ∉ pre)
    (hA : allAscii pre = true) :
    pyReadline (pre ++ newlineByte :: rest) = some (.ok (some (pyStrip pre), rest)) := by
  cases pre with
  | nil =>
    rw [pyReadline.eq_def]
    simp only [List.nil_append, List.length_cons]
    rw [rlLoop_newline]
    simp [allAscii]
  | cons b pb =>
    have hfind := rlLoop_finds (b :: pb) (((b :: pb) ++ newlineByte :: rest).length + 1)
      rest [] h10 (by simp; omega)
    simp only [List.cons_append, List.head?_cons, List.tail_cons, List.reverse_nil,
      List.nil_append] at hfind
    rw [pyReadline.eq_def]
    simp only [List.cons_append]
    rw [hfind]
    simp [hA]

/-- A nonempty stream with no newline anywhere makes `_readline` run
forever (the loop keeps reading `b''` at end of stream): in the model,
`pyReadline` returns `none`. -/
theorem pyReadline_diverge (s : List Nat) (hne : s ≠ []) (h10 : newlineByte ∉ s) :
    pyReadline s = none := by
  cases s with
  | nil => exact absurd rfl hne
  | cons c cs =>
    rw [pyReadline]
    have hc : (some c : Option Nat) ≠ some newlineByte := by
      simp only [ne_eq, Option.some.injEq]
      exact fun h => h10 (by simp [h])
    rw [rlLoop_eq_none_of_no_newline _ _ _ _ hc
      (fun hm => h10 (List.mem_cons_of_mem _ hm))]

/-- A returning `_readline` call leaves a stream no longer than its input. -/
theorem pyReadline_rest_le (s rest : List Nat) (x : Option (List Nat))
    (h : pyReadline s = some (.ok (x, rest))) : rest.length ≤ s.length := by
  cases s with
  | nil =>
    rw [pyReadline_nil] at h
    cases h
    simp
  | cons c cs =>
    rw [pyReadline] at h
    cases hl : rlLoop ((c :: cs).length + 1) (some c) cs [] with
    | none => rw [hl] at h; cases h
    | some p =>
      obtain ⟨line, s1⟩ := p
      rw [hl] at h
      by_cases hA : allAscii line = true
      · simp only [hA, if_true] at h
        cases h
        have := rlLoop_rest_le _ _ _ _ _ _ hl
        simp only [List.length_cons]
        omega
      · simp only [hA, if_false] at h
        cases h

/-- A `_readline` call returning an actual line consumed at least one
byte: the remaining stream is strictly shorter. -/
theorem pyReadline_rest_lt (s rest : List Nat) (line : List Nat)
    (h : pyReadline s = some (.ok (some line, rest))) : rest.length < s.length := by
  cases s with
  | nil =>
    rw [pyReadline_nil] at h
    cases h
  | cons c cs =>
    rw [pyReadline] at h
    cases hl : rlLoop ((c :: cs).length + 1) (some c) cs [] with
    | none => rw [hl] at h; cases h
    | some p =>
      obtain ⟨l0, s1⟩ := p
      rw [hl] at h
      by_cases hA : allAscii l0 = true
      · simp only [hA, if_true] at h
        cases h
        have := rlLoop_rest_le _ _ _ _ _ _ hl
        simp only [List.length_cons]
        omega
      · simp only [hA, if_false] at h
        cases h

/-- Parsing a frame record strictly shrinks the stream. -/
theorem parseRecord_rest_lt (s : List Nat) (fr : Frame) (rest : List Nat)
    (h : parseRecord s = .frame fr rest) : rest.length < s.length := by
  unfold parseRecord at h
  split at h
  · cases h
  · cases h
  · rename_i format s1 hr
    split at h
    · cases h
    · split at h
      · cases h
      · rename_i hp
        have hfmt : format = some pSix := not_not.mp hp
        rw [hfmt] at hr
        have hlt1 : s1.length < s.length := pyReadline_rest_lt _ _ _ hr
        split at h
        · cases h
        · cases h
        · cases h
        · rename_i dimsLine s2 hr1
          have hle2 : s2.length ≤ s1.length := pyReadline_rest_le _ _ _ hr1
          split at h
          · cases h
          · rename_i w hgt hd
            split at h
            · cases h
            · cases h
            · cases h
            · rename_i maxLine s3 hr2
              have hle3 : s3.length ≤ s2.length := pyReadline_rest_le _ _ _ hr2
              split at h
              · cases h
              · split at h
                · cases h
                · split at h
                  · cases h
                  · split at h
                    · cases h
                    · cases h
                      have : (s3.drop (w * hgt * 3)).length ≤ s3.length := by
                        simp
                      omega

/-- The loop consumes at least one byte per emitted frame, so any fuel
above the stream length gives the same result. -/
theorem frameLoopF_irrel (n : Nat) : ∀ (s : List Nat), s.length ≤ n →
    ∀ f₁ f₂ : Nat, s.length < f₁ → s.length < f₂ → frameLoopF f₁ s = frameLoopF f₂ s := by
  induction n using Nat.strong_induction_on with
  | _ n ih =>
    intro s hs f₁ f₂ h₁ h₂
    obtain ⟨a, rfl⟩ : ∃ a, f₁ = a + 1 := ⟨f₁ - 1, by omega⟩
    obtain ⟨b, rfl⟩ : ∃ b, f₂ = b + 1 := ⟨f₂ - 1, by omega⟩
    simp only [frameLoopF]
    cases hp : parseRecord s with
    | diverge => rfl
    | fail e => rfl
    | endOfStream => rfl
    | frame fr rest =>
      have hlt : rest.length < s.length := parseRecord_rest_lt _ _ _ hp
      have hab : frameLoopF a rest = frameLoopF b rest := by
        rcases Nat.eq_zero_or_pos s.length with hz | hpos
        · omega
        · exact ih (n - 1) (by omega) rest (by omega) a b (by omega) (by omega)
      simp only [hab]

/-- The defining one-step equation of `frameLoop`. -/
theorem frameLoop_step (s : List Nat) :
    frameLoop s =
      match parseRecord s with
      | .diverge => none
      | .fail e => some (.error e)
      | .endOfStream => some (.ok [])
      | .frame fr rest =>
        match frameLoop rest with
        | none => none
        | some (.error e) => some (.error e)
        | some (.ok fs) => some (.ok (fr :: fs)) := by
  rw [frameLoop, frameLoopF]
  cases hp : parseRecord s with
  | diverge => rfl
  | fail e => rfl
  | endOfStream => rfl
  | frame fr rest =>
    have hlt : rest.length < s.length := parseRecord_rest_lt _ _ _ hp
    simp only [show frameLoopF s.length rest = frameLoop rest from
      frameLoopF_irrel rest.length rest le_rfl _ _ (by omega) (by omega)]

/-- Parsing a record that starts with the three well-formed header lines
`P6`, a dimension line parsing to `(w, h)`, and a sample-depth line
parsing to `255`: the step is then decided by the payload bytes alone,
exactly as source lines 134-140 decide it. -/
theorem parseRecord_header (w h : Nat) (dimsLine maxLine tail : List Nat)
    (hd10 : newlineByte ∉ dimsLine) (hdA : allAscii dimsLine = true)
    (hdp : parseDims (pyStrip dimsLine) = some (w, h))
    (hm10 : newlineByte ∉ maxLine) (hmA : allAscii maxLine = true)
    (hmp : parseNat (pyStrip maxLine) = some 255) :
    parseRecord (pSix ++ newlineByte ::
        (dimsLine ++ newlineByte :: (maxLine ++ newlineByte :: tail))) =
      if tail.take (w * h * 3) = [] then .fail (.imageDecode frameReadMsg)
      else if (tail.take (w * h * 3)).length ≠ h * w * 3 then .fail .valueError
      else .frame ⟨h, w, rgb2bgr (tail.take (w * h * 3))⟩ (tail.drop (w * h * 3)) := by
  have h1 : pyReadline (pSix ++ newlineByte ::
      (dimsLine ++ newlineByte :: (maxLine ++ newlineByte :: tail))) =
      some (.ok (some pSix, dimsLine ++ newlineByte :: (maxLine ++ newlineByte :: tail))) := by
    rw [pyReadline_line pSix _ (by decide) (by decide)]
    rfl
  have h2 : pyReadline (dimsLine ++ newlineByte :: (maxLine ++ newlineByte :: tail)) =
      some (.ok (some (pyStrip dimsLine), maxLine ++ newlineByte :: tail)) :=
    pyReadline_line _ _ hd10 hdA
  have h3 : pyReadline (maxLine ++ newlineByte :: tail) =
      some (.ok (some (pyStrip maxLine), tail)) :=
    pyReadline_line _ _ hm10 hmA
  unfold parseRecord
  simp only [h1, h2, h3, hdp, hmp]
  norm_num [pyFalsy, pSix]

/-- One loop iteration on a well-formed record consumes exactly the
record and emits exactly its frame. -/
theorem parseRecord_enc (r : PPMRecord) (hwf : r.WF) (rest : List Nat) :
    parseRecord (r.enc ++ rest) = .frame r.toFrame rest := by
  obtain ⟨h1, h2, h3, h4, h5, h6, h7, h8, h9⟩ := hwf
  have hshape : r.enc ++ rest = pSix ++ newlineByte ::
      (r.dimsLine ++ newlineByte :: (r.maxLine ++ newlineByte :: (r.payload ++ rest))) := by
    simp [PPMRecord.enc]
  rw [hshape, parseRecord_header r.width r.height r.dimsLine r.maxLine
    (r.payload ++ rest) h1 h2 h3 h4 h5 h6]
  have htake : (r.payload ++ rest).take (r.width * r.height * 3) = r.payload := by
    rw [← h9]; exact List.take_left _ _
  have hdrop : (r.payload ++ rest).drop (r.width * r.height * 3) = rest := by
    rw [← h9]; exact List.drop_left _ _
  rw [htake, hdrop]
  have hpos : 0 < r.width * r.height * 3 :=
    Nat.mul_pos (Nat.mul_pos h7 h8) (by norm_num)
  have hne : r.payload ≠ [] := by
    intro hh
    rw [hh] at h9
    simp at h9
    omega
  rw [if_neg hne, if_neg (by rw [h9, Nat.mul_comm r.width r.height]; simp)]
  rfl

/-- The frame loop on a stream of well-formed records followed by clean
end of stream yields exactly the records' frames in order. -/
theorem frameLoop_records (records : List PPMRecord) (hwf : ∀ r ∈ records, r.WF) :
    frameLoop ((records.map PPMRecord.enc).flatten) =
      some (.ok (records.map PPMRecord.toFrame)) := by
  induction records with
  | nil => rfl
  | cons r rs ih =>
    simp only [List.map_cons, List.flatten_cons]
    rw [frameLoop_step]
    simp only [parseRecord_enc r (hwf r (List.mem_cons_self r rs)) ((rs.map PPMRecord.enc).flatten),
      ih (fun x hx => hwf x (List.mem_cons_of_mem _ hx))]

theorem strContains_self (s : String) : strContains s s := ⟨[], [], by simp⟩

/-- After a benign probe and a passing size check, a clean loop reduces
the rest of the run to the `proc.wait` step. -/
theorem afterProbe_exited (L : Limits) (fileSize : Nat) (stream : List Nat)
    (st : String) (frames : List Frame) (rc : Int)
    (hsize : ¬ L.uploadCapBytes < fileSize)
    (hloop : frameLoop stream = some (.ok frames)) :
    afterProbe L fileSize stream (.exited rc) st =
      if rc = 0 then ⟨[.waitCall 1], some (.ok frames)⟩
      else ⟨[.waitCall 1], some (.error (.imageDecode st))⟩ := by
  unfold afterProbe
  simp [hsize, hloop]

/-- A benign probe outcome leaves the run's result to `afterProbe` and
only prepends events. -/
theorem decode_video_benign (L : Limits) (fileSize : Nat) (pr : ProbeOutcome)
    (stream : List Nat) (w : WaitOutcome) (st : String)
    (hpr : probeBenign L pr) :
    (decode_video_from_file L fileSize pr stream w st).result =
      (afterProbe L fileSize stream w st).result
    ∧ ∀ e : Event, e ∈ (afterProbe L fileSize stream w st).events →
        e ∈ (decode_video_from_file L fileSize pr stream w st).events := by
  rcases hpr with rfl | ⟨d, rfl, hd⟩
  · exact ⟨rfl, fun e he => by
      unfold decode_video_from_file
      simp [he]⟩
  · constructor
    · unfold decode_video_from_file
      simp [hd]
    · intro e he
      unfold decode_video_from_file
      simp [hd, he]

/-- C1 (corrected): with the default configuration, a file one byte over
the 200 MB upload cap does fail with the `DecodeError` of the size
check, but the trace shows the external process was already spawned
(and the probe attempted) before that check ran — refuting "no process
invocation occurs on the rejected path". -/
theorem c1_counterexample :
    (decode_video_from_file defaultLimits 209715201 .ffmpegError [] (.exited 0) "").events =
      [.spawn, .probeCall, .logWarning]
    ∧ (decode_video_from_file defaultLimits 209715201 .ffmpegError [] (.exited 0) "").result =
      some (.error (.imageDecode (sizeMsg 209715201 defaultLimits.uploadCapBytes)))
    ∧ Event.spawn ∈
        (decode_video_from_file defaultLimits 209715201 .ffmpegError [] (.exited 0) "").events := by
  refine ⟨rfl, rfl, ?_⟩
  rw [show (decode_video_from_file defaultLimits 209715201 .ffmpegError [] (.exited 0) "").events =
    [.spawn, .probeCall, .logWarning] from rfl]
  simp

/-- C1 (amended): for every video decode call with a file whose byte
length exceeds the configured upload cap, and a probe that does not
itself abort, the operation fails with the size-check `DecodeError` —
but only after the external transcoding process has been spawned: the
spawn is in the trace of the rejected path. -/
theorem c1_oversize_fails_after_spawn (L : Limits) (fileSize : Nat)
    (pr : ProbeOutcome) (stream : List Nat) (w : WaitOutcome) (st : String)
    (hsize : L.uploadCapBytes < fileSize) (hpr : probeBenign L pr) :
    (decode_video_from_file L fileSize pr stream w st).result =
      some (.error (.imageDecode (sizeMsg fileSize L.uploadCapBytes)))
    ∧ Event.spawn ∈ (decode_video_from_file L fileSize pr stream w st).events := by
  rcases hpr with rfl | ⟨d, rfl, hd⟩
  · unfold decode_video_from_file afterProbe
    simp [hsize]
  · unfold decode_video_from_file afterProbe
    simp [hsize, hd]

theorem c1_oversize_fails_after_spawn_witness :
    (decode_video_from_file defaultLimits 209715201 .ffmpegError [] (.exited 0) "").result =
      some (.error (.imageDecode (sizeMsg 209715201 defaultLimits.uploadCapBytes)))
    ∧ Event.spawn ∈
        (decode_video_from_file defaultLimits 209715201 .ffmpegError [] (.exited 0) "").events :=
  c1_oversize_fails_after_spawn defaultLimits 209715201 .ffmpegError [] (.exited 0) ""
    (by decide) (Or.inl rfl)

/-- C2 (corrected): a probe outcome whose returned dictionary lacks the
duration field makes the decode raise `KeyError` to the caller — no
warning is logged and decoding does not proceed — refuting "a failure of
the duration probe (of any kind) is logged and never raised". -/
theorem c2_counterexample :
    decode_video_from_file defaultLimits 0 (.ok .missing) [] (.exited 0) "" =
      ⟨[.spawn, .probeCall], some (.error .keyError)⟩
    ∧ Event.logWarning ∉
        (decode_video_from_file defaultLimits 0 (.ok .missing) [] (.exited 0) "").events
    ∧ PyErr.keyError.isImageDecode = false := by
  refine ⟨rfl, ?_, rfl⟩
  rw [show (decode_video_from_file defaultLimits 0 (.ok .missing) [] (.exited 0) "").events =
    [.spawn, .probeCall] from rfl]
  simp

/-- C2 (amended): only a probe call raising `ffmpeg.Error` is logged as
a warning and ignored, with decoding proceeding as if the limit were
unknown; a probe result with a missing duration field raises `KeyError`,
an unparsable one raises `ValueError`, a probe raising anything other
than `ffmpeg.Error` propagates, and an actually probed duration above
the maximum raises the duration `DecodeError`; a probed duration within
the limit lets decoding proceed. -/
theorem c2_probe_error_handling (L : Limits) (fileSize : Nat) (stream : List Nat)
    (w : WaitOutcome) (st : String) (d : ℚ) :
    (decode_video_from_file L fileSize .ffmpegError stream w st =
      ⟨.spawn :: .probeCall :: .logWarning ::
          (afterProbe L fileSize stream w st).events,
        (afterProbe L fileSize stream w st).result⟩)
    ∧ ((decode_video_from_file L fileSize (.ok .missing) stream w st).result =
        some (.error .keyError))
    ∧ ((decode_video_from_file L fileSize (.ok .unparsable) stream w st).result =
        some (.error .valueError))
    ∧ ((decode_video_from_file L fileSize .otherError stream w st).result =
        some (.error .osError))
    ∧ ((L.maxDuration : ℚ) < d →
        (decode_video_from_file L fileSize (.ok (.val d)) stream w st).result =
          some (.error (.imageDecode (durationMsg d L.maxDuration))))
    ∧ (¬ (L.maxDuration : ℚ) < d →
        decode_video_from_file L fileSize (.ok (.val d)) stream w st =
          ⟨.spawn :: .probeCall :: (afterProbe L fileSize stream w st).events,
            (afterProbe L fileSize stream w st).result⟩) := by
  refine ⟨rfl, rfl, rfl, rfl, fun hd => ?_, fun hd => ?_⟩
  · unfold decode_video_from_file
    simp [hd]
  · unfold decode_video_from_file
    simp [hd]

theorem c2_probe_error_handling_witness :
    (decode_video_from_file defaultLimits 0 (.ok (.val 301)) [] (.exited 0) "").result =
      some (.error (.imageDecode (durationMsg 301 defaultLimits.maxDuration)))
    ∧ decode_video_from_file defaultLimits 0 (.ok (.val 299)) [] (.exited 0) "" =
      ⟨.spawn :: .probeCall :: (afterProbe defaultLimits 0 [] (.exited 0) "").events,
        (afterProbe defaultLimits 0 [] (.exited 0) "").result⟩ := by
  constructor
  · exact (c2_probe_error_handling defaultLimits 0 [] (.exited 0) "" 301).2.2.2.2.1
      (by norm_num [defaultLimits])
  · exact (c2_probe_error_handling defaultLimits 0 [] (.exited 0) "" 299).2.2.2.2.2
      (by norm_num [defaultLimits])

/-- C3 (confirmed): an output stream of N well-formed pixel-map records
(`P6` token, a dimension line parsing to positive `width height`, sample
depth 255, exactly `width*height*3` payload bytes each) followed by
clean end of stream makes the frame loop yield exactly the N frames in
stream order, the k-th of shape `height_k x width_k x 3` with the k-th
payload's red and blue samples swapped; with benign pre-flight outcomes
and a zero exit status the whole decode returns exactly those frames. -/
theorem c3_wellformed_stream_yields_frames (records : List PPMRecord)
    (hwf : ∀ r ∈ records, r.WF) (L : Limits) (fileSize : Nat)
    (pr : ProbeOutcome) (st : String)
    (hpr : probeBenign L pr) (hsize : ¬ L.uploadCapBytes < fileSize) :
    frameLoop ((records.map PPMRecord.enc).flatten) =
      some (.ok (records.map PPMRecord.toFrame))
    ∧ (decode_video_from_file L fileSize pr ((records.map PPMRecord.enc).flatten)
        (.exited 0) st).result = some (.ok (records.map PPMRecord.toFrame)) := by
  have hl := frameLoop_records records hwf
  refine ⟨hl, ?_⟩
  rw [(decode_video_benign L fileSize pr _ (.exited 0) st hpr).1,
    afterProbe_exited L fileSize _ st _ 0 hsize hl]
  simp

theorem c3_wellformed_stream_yields_frames_witness :
    frameLoop (([(⟨1, 1, [49, 32, 49], [50, 53, 53], [1, 2, 3]⟩ : PPMRecord)].map
        PPMRecord.enc).flatten) =
      some (.ok [⟨1, 1, [3, 2, 1]⟩])
    ∧ (decode_video_from_file defaultLimits 0 .ffmpegError
        (([(⟨1, 1, [49, 32, 49], [50, 53, 53], [1, 2, 3]⟩ : PPMRecord)].map
          PPMRecord.enc).flatten) (.exited 0) "").result =
      some (.ok [⟨1, 1, [3, 2, 1]⟩]) := by
  have h := c3_wellformed_stream_yields_frames
    [⟨1, 1, [49, 32, 49], [50, 53, 53], [1, 2, 3]⟩]
    (by
      intro r hr
      rw [List.mem_singleton] at hr
      subst hr
      exact ⟨by decide, by decide, by decide, by decide, by decide, by decide,
        by decide, by decide, by decide⟩)
    defaultLimits 0 .ffmpegError "" (Or.inl rfl) (by decide)
  exact h

/-- C4 (corrected): at a record boundary the non-failing outcomes of the
first header line are clean end of stream before any byte (ends the
sequence) and any line that strips to the empty string — an empty or
all-whitespace line also ends the sequence cleanly instead of raising;
a line stripping to anything else than `P6` raises the format
`DecodeError`; and end of stream after bytes were read does not raise at
all — the line reader never returns. -/
theorem c4_format_line_outcomes (pre rest s : List Nat) :
    (frameLoop [] = some (.ok []))
    ∧ (newlineByte ∉ pre → allAscii pre = true → pyStrip pre = [] →
        frameLoop (pre ++ newlineByte :: rest) = some (.ok []))
    ∧ (newlineByte ∉ pre → allAscii pre = true → pyStrip pre ≠ [] → pyStrip pre ≠ pSix →
        frameLoop (pre ++ newlineByte :: rest) =
          some (.error (.imageDecode unsupportedFormatMsg)))
    ∧ (s ≠ [] → newlineByte ∉ s → frameLoop s = none) := by
  refine ⟨rfl, fun h10 hA hstrip => ?_, fun h10 hA hne hnp => ?_, fun hne h10 => ?_⟩
  · rw [frameLoop_step]
    unfold parseRecord
    simp [pyReadline_line _ _ h10 hA, hstrip, pyFalsy]
  · rw [frameLoop_step]
    unfold parseRecord
    have hfalsy : pyFalsy (some (pyStrip pre)) = false := by
      cases hps : pyStrip pre with
      | nil => exact absurd hps hne
      | cons a as => rfl
    simp [pyReadline_line _ _ h10 hA, hfalsy, hnp]
  · rw [frameLoop_step]
    unfold parseRecord
    simp [pyReadline_diverge s hne h10]

theorem c4_format_line_outcomes_witness :
    frameLoop [] = some (.ok [])
    ∧ frameLoop [32, 10, 80, 54, 10] = some (.ok [])
    ∧ frameLoop [88, 10] = some (.error (.imageDecode unsupportedFormatMsg))
    ∧ frameLoop [80, 54] = none := by
  refine ⟨(c4_format_line_outcomes [] [] []).1, ?_, ?_, ?_⟩
  · exact (c4_format_line_outcomes [32] [80, 54, 10] []).2.1 (by decide) (by decide) (by decide)
  · exact (c4_format_line_outcomes [88] [] []).2.2.1 (by decide) (by decide) (by decide) (by decide)
  · exact (c4_format_line_outcomes [] [] [80, 54]).2.2.2 (by decide) (by decide)

/-- C4 (counterexample to the claim as stated): a lone newline as first
header line — an empty line — is not a hard `DecodeError`: the loop
treats it as end of sequence and finishes cleanly with no frames. -/
theorem c4_counterexample :
    frameLoop [10] = some (.ok [])
    ∧ frameLoop [10] ≠ some (.error (.imageDecode unsupportedFormatMsg)) := by
  refine ⟨rfl, fun hcontra => ?_⟩
  rw [show frameLoop [10] = some (.ok []) from rfl] at hcontra
  simp at hcontra

/-- C5 (corrected): a record whose well-formed header declares
`width*height*3` payload bytes but whose stream ends early fails — with
the `DecodeError` `'could not read the full frame'` exactly when zero
payload bytes could be read, and with an untyped `ValueError` (from
`reshape`), not a `DecodeError`, when a nonzero partial payload was
read. -/
theorem c5_short_payload (w h : Nat) (dimsLine maxLine payload : List Nat)
    (hd10 : newlineByte ∉ dimsLine) (hdA : allAscii dimsLine = true)
    (hdp : parseDims (pyStrip dimsLine) = some (w, h))
    (hm10 : newlineByte ∉ maxLine) (hmA : allAscii maxLine = true)
    (hmp : parseNat (pyStrip maxLine) = some 255)
    (hshort : payload.length < w * h * 3) :
    (payload = [] →
      frameLoop (pSix ++ newlineByte ::
          (dimsLine ++ newlineByte :: (maxLine ++ newlineByte :: payload))) =
        some (.error (.imageDecode frameReadMsg)))
    ∧ (payload ≠ [] →
      frameLoop (pSix ++ newlineByte ::
          (dimsLine ++ newlineByte :: (maxLine ++ newlineByte :: payload))) =
        some (.error .valueError)) := by
  have hstep := parseRecord_header w h dimsLine maxLine payload hd10 hdA hdp hm10 hmA hmp
  have htake : payload.take (w * h * 3) = payload :=
    List.take_of_length_le (le_of_lt hshort)
  rw [htake] at hstep
  constructor
  · intro hnil
    subst hnil
    rw [frameLoop_step]
    simp [hstep]
  · intro hne
    rw [frameLoop_step]
    have hmul : h * w * 3 = w * h * 3 := by ring
    have hlen : payload.length ≠ h * w * 3 := by omega
    simp [hstep, hne, hlen]

theorem c5_short_payload_witness :
    frameLoop [80, 54, 10, 49, 32, 49, 10, 50, 53, 53, 10] =
      some (.error (.imageDecode frameReadMsg))
    ∧ frameLoop [80, 54, 10, 49, 32, 49, 10, 50, 53, 53, 10, 7] =
      some (.error .valueError) := by
  constructor
  · exact (c5_short_payload 1 1 [49, 32, 49] [50, 53, 53] [] (by decide) (by decide)
      (by decide) (by decide) (by decide) (by decide) (by decide)).1 rfl
  · exact (c5_short_payload 1 1 [49, 32, 49] [50, 53, 53] [7] (by decide) (by decide)
      (by decide) (by decide) (by decide) (by decide) (by decide)).2 (by decide)

/-- C5 (counterexample to the claim as stated): a 1x1 record whose
payload supplies 2 of the declared 3 bytes before end of stream fails
with `ValueError` from `reshape` — not with `DecodeError`. -/
theorem c5_counterexample :
    frameLoop [80, 54, 10, 49, 32, 49, 10, 50, 53, 53, 10, 7, 8] =
      some (.error .valueError)
    ∧ PyErr.valueError.isImageDecode = false := ⟨rfl, rfl⟩

/-- C6 (confirmed): after a clean end of the output stream the decoder
waits on the process with a bounded timeout (`timeout=1` is in the
trace); a nonzero exit status fails with a `DecodeError` whose message
contains the text captured from the process's error stream, and a zero
exit status raises no error. -/
theorem c6_wait_after_clean_stream (L : Limits) (fileSize : Nat) (pr : ProbeOutcome)
    (stream : List Nat) (st : String) (frames : List Frame) (rc : Int)
    (hpr : probeBenign L pr) (hsize : ¬ L.uploadCapBytes < fileSize)
    (hloop : frameLoop stream = some (.ok frames)) :
    Event.waitCall 1 ∈ (decode_video_from_file L fileSize pr stream (.exited rc) st).events
    ∧ (rc = 0 → (decode_video_from_file L fileSize pr stream (.exited rc) st).result =
        some (.ok frames))
    ∧ (rc ≠ 0 → ∃ msg, (decode_video_from_file L fileSize pr stream (.exited rc) st).result =
        some (.error (.imageDecode msg)) ∧ strContains msg st) := by
  have hb := decode_video_benign L fileSize pr stream (.exited rc) st hpr
  have ha := afterProbe_exited L fileSize stream st frames rc hsize hloop
  refine ⟨?_, fun hrc => ?_, fun hrc => ?_⟩
  · apply hb.2
    rw [ha]
    by_cases hrc : rc = 0 <;> simp [hrc]
  · rw [hb.1, ha]
    simp [hrc]
  · refine ⟨st, ?_, strContains_self st⟩
    rw [hb.1, ha]
    simp [hrc]

theorem c6_wait_after_clean_stream_witness :
    Event.waitCall 1 ∈
      (decode_video_from_file defaultLimits 0 .ffmpegError [] (.exited 1) "boom").events
    ∧ ∃ msg, (decode_video_from_file defaultLimits 0 .ffmpegError [] (.exited 1) "boom").result =
        some (.error (.imageDecode msg)) ∧ strContains msg "boom" := by
  have h := c6_wait_after_clean_stream defaultLimits 0 .ffmpegError [] "boom" [] 1
    (Or.inl rfl) (by decide) rfl
  exact ⟨h.1, h.2.2 (by decide)⟩

/-- C7 (corrected): the resolver decodes the full-size file (under the
`full/` subdirectory) exactly when the post declares a truthy full-size
filename and that file exists (logging at debug level); when declared
but absent it logs at error level — not warning level — and decodes the
primary file; when not declared it decodes the primary file without any
full-size check. -/
theorem c7_fullsize_resolution (mediaDir : List String) (fs : FileSystem)
    (post : Post) (s : String) :
    (post.fullsize = some s → s ≠ "" → fs.isFile (mediaDir ++ ["full", s]) = true →
      registeredDecoder post.type = true → fs.openOk (mediaDir ++ ["full", s]) = true →
      get_images mediaDir fs post =
        ([.isFileCheck (mediaDir ++ ["full", s]), .logDebug,
          .openFile (mediaDir ++ ["full", s])], .ok (mediaDir ++ ["full", s])))
    ∧ (post.fullsize = some s → s ≠ "" → fs.isFile (mediaDir ++ ["full", s]) = false →
      registeredDecoder post.type = true → fs.openOk (mediaDir ++ [post.image]) = true →
      get_images mediaDir fs post =
        ([.isFileCheck (mediaDir ++ ["full", s]), .logError,
          .openFile (mediaDir ++ [post.image])], .ok (mediaDir ++ [post.image]))
      ∧ RMEvent.logWarning ∉ (get_images mediaDir fs post).1)
    ∧ (post.fullsize = none → registeredDecoder post.type = true →
      fs.openOk (mediaDir ++ [post.image]) = true →
      get_images mediaDir fs post =
        ([.openFile (mediaDir ++ [post.image])], .ok (mediaDir ++ [post.image]))) := by
  refine ⟨fun hfs hs hisf hreg hopen => ?_, fun hfs hs hisf hreg hopen => ?_,
    fun hfs hreg hopen => ?_⟩
  · unfold get_images
    simp [hfs, hs, hisf, hreg, hopen]
  · have hmain : get_images mediaDir fs post =
        ([.isFileCheck (mediaDir ++ ["full", s]), .logError,
          .openFile (mediaDir ++ [post.image])], .ok (mediaDir ++ [post.image])) := by
      unfold get_images
      simp [hfs, hs, hisf, hreg, hopen]
    refine ⟨hmain, ?_⟩
    rw [show (get_images mediaDir fs post).1 =
      [.isFileCheck (mediaDir ++ ["full", s]), .logError,
        .openFile (mediaDir ++ [post.image])] from by rw [hmain]]
    simp
  · unfold get_images
    simp [hfs, hreg, hopen]

theorem c7_fullsize_resolution_witness :
    get_images ["m"] ⟨fun _ => true, fun _ => true⟩ ⟨1, "a.jpg", some "f.jpg", .image⟩ =
      ([.isFileCheck ["m", "full", "f.jpg"], .logDebug, .openFile ["m", "full", "f.jpg"]],
        .ok ["m", "full", "f.jpg"])
    ∧ get_images ["m"] ⟨fun _ => false, fun _ => true⟩ ⟨1, "a.jpg", some "f.jpg", .image⟩ =
      ([.isFileCheck ["m", "full", "f.jpg"], .logError, .openFile ["m", "a.jpg"]],
        .ok ["m", "a.jpg"])
    ∧ get_images ["m"] ⟨fun _ => true, fun _ => true⟩ ⟨1, "a.jpg", none, .image⟩ =
      ([.openFile ["m", "a.jpg"]], .ok ["m", "a.jpg"]) := by
  refine ⟨?_, ?_, ?_⟩
  · exact (c7_fullsize_resolution ["m"] ⟨fun _ => true, fun _ => true⟩
      ⟨1, "a.jpg", some "f.jpg", .image⟩ "f.jpg").1 rfl (by decide) rfl rfl rfl
  · exact ((c7_fullsize_resolution ["m"] ⟨fun _ => false, fun _ => true⟩
      ⟨1, "a.jpg", some "f.jpg", .image⟩ "f.jpg").2.1 rfl (by decide) rfl rfl rfl).1
  · exact (c7_fullsize_resolution ["m"] ⟨fun _ => true, fun _ => true⟩
      ⟨1, "a.jpg", none, .image⟩ "f.jpg").2.2 rfl rfl rfl

/-- C7 (counterexample to the claim as stated): with a declared but
absent full-size file the resolver does fall back to the primary file,
but the fallback is logged at error level — no warning-level log is
emitted, refuting "it logs a warning". -/
theorem c7_counterexample :
    get_images ["m"] ⟨fun _ => false, fun _ => true⟩ ⟨1, "a.jpg", some "f.jpg", .image⟩ =
      ([.isFileCheck ["m", "full", "f.jpg"], .logError, .openFile ["m", "a.jpg"]],
        .ok ["m", "a.jpg"])
    ∧ RMEvent.logWarning ∉
        (get_images ["m"] ⟨fun _ => false, fun _ => true⟩
          ⟨1, "a.jpg", some "f.jpg", .image⟩).1 := by
  refine ⟨rfl, fun hmem => ?_⟩
  rw [show (get_images ["m"] ⟨fun _ => false, fun _ => true⟩
      ⟨1, "a.jpg", some "f.jpg", PostType.image⟩).1 =
    [.isFileCheck ["m", "full", "f.jpg"], .logError, .openFile ["m", "a.jpg"]] from rfl] at hmem
  simp at hmem

/-- C8 (confirmed): for a post whose media type has no registered
decoder, `get_images` fails with the unsupported-type error, its trace
contains no file open (and hence no read), and the failure is not the
`MediaNotFoundError` wrap. -/
theorem c8_unregistered_type (mediaDir : List String) (fs : FileSystem) (post : Post)
    (h : registeredDecoder post.type = false) :
    (get_images mediaDir fs post).2 = .error .notImplemented
    ∧ ((get_images mediaDir fs post).1.all fun e => ! e.isOpen) = true
    ∧ (get_images mediaDir fs post).2 ≠ .error .noMediaFound := by
  cases hf : post.fullsize with
  | none =>
    unfold get_images
    simp [h, hf, RMEvent.isOpen]
  | some s =>
    by_cases hs : s = ""
    · unfold get_images
      simp [h, hf, hs, RMEvent.isOpen]
    · by_cases hisf : fs.isFile (mediaDir ++ ["full", s]) = true
      · unfold get_images
        simp [h, hf, hs, hisf, RMEvent.isOpen]
      · unfold get_images
        simp [h, hf, hs, hisf, RMEvent.isOpen]

theorem c8_unregistered_type_witness :
    (get_images ["m"] ⟨fun _ => true, fun _ => true⟩ ⟨1, "a.gif", some "f.gif", .animated⟩).2 =
      .error .notImplemented
    ∧ ((get_images ["m"] ⟨fun _ => true, fun _ => true⟩
        ⟨1, "a.gif", some "f.gif", .animated⟩).1.all fun e => ! e.isOpen) = true
    ∧ (get_images ["m"] ⟨fun _ => true, fun _ => true⟩
        ⟨1, "a.gif", some "f.gif", .animated⟩).2 ≠ .error .noMediaFound :=
  c8_unregistered_type ["m"] ⟨fun _ => true, fun _ => true⟩
    ⟨1, "a.gif", some "f.gif", .animated⟩ rfl

/-- C9 (corrected): the image decoder either returns the one decoded
image or fails with the `ImageDecodeException` whose message is
`"Could not decode image"` (capital C — not the claim's quoted
`"could not decode image"`), and the `None` result of `imdecode`
produces exactly the same error as a thrown decode failure; the
operation is pure. -/
theorem c9_decode_image_outcomes (o : ImdecodeOutcome) :
    ((∃ h w, o = .img h w ∧ _decode_image o = .ok (h, w))
      ∨ _decode_image o = .error (.imageDecode imageDecodeMsg))
    ∧ _decode_image .noResult = _decode_image .raises := by
  cases o with
  | img h w => exact ⟨Or.inl ⟨h, w, rfl, rfl⟩, rfl⟩
  | noResult => exact ⟨Or.inr rfl, rfl⟩
  | raises => exact ⟨Or.inr rfl, rfl⟩

/-- C9 (counterexample to the claim as stated): the error message the
code raises is `"Could not decode image"`, which differs from the
claim's quoted message `"could not decode image"`. -/
theorem c9_counterexample :
    _decode_image .noResult = .error (.imageDecode "Could not decode image")
    ∧ "Could not decode image" ≠ "could not decode image"
    ∧ _decode_image .noResult = _decode_image .raises := by
  refine ⟨rfl, ?_, rfl⟩
  decide

/-- C10 (corrected): the header-line reader returns `None` on a stream
already at end of stream and the whitespace-trimmed line content when a
newline terminates the line — but on a nonempty stream that ends
mid-line without a newline byte it does not terminate: the read loop
spins on empty reads forever. -/
theorem c10_readline_termination (s pre rest : List Nat) :
    (s = [] → pyReadline s = some (.ok (none, [])))
    ∧ (s = pre ++ newlineByte :: rest → newlineByte ∉ pre → allAscii pre = true →
        pyReadline s = some (.ok (some (pyStrip pre), rest)))
    ∧ (s ≠ [] → newlineByte ∉ s → readlineDiverges s ∧ pyReadline s = none) := by
  refine ⟨fun h => by rw [h]; rfl,
    fun h h10 hA => by rw [h]; exact pyReadline_line pre rest h10 hA,
    fun hne h10 => ⟨⟨hne, fun fuel => ?_⟩, pyReadline_diverge s hne h10⟩⟩
  cases s with
  | nil => exact absurd rfl hne
  | cons c cs =>
    simp only [List.head?_cons, List.tail_cons]
    refine rlLoop_eq_none_of_no_newline fuel (some c) cs [] ?_ ?_
    · simp only [ne_eq, Option.some.injEq]
      exact fun hh => h10 (by simp [hh])
    · exact fun hm => h10 (List.mem_cons_of_mem _ hm)

theorem c10_readline_termination_witness :
    pyReadline [] = some (.ok (none, []))
    ∧ pyReadline [49, 10] = some (.ok (some [49], []))
    ∧ readlineDiverges [80, 54] ∧ pyReadline [80, 54] = none := by
  have h1 := (c10_readline_termination [] [] []).1 rfl
  have h2 := (c10_readline_termination [49, 10] [49] []).2.1 rfl (by decide) (by decide)
  have h3 := (c10_readline_termination [80, 54] [] []).2.2 (by decide) (by decide)
  exact ⟨h1, h2, h3.1, h3.2⟩

/-- C10 (counterexample to the claim as stated): on the two-byte stream
`P6` with no terminating newline, the reader does not return the trimmed
content — it never returns: the loop exhausts every fuel bound. -/
theorem c10_counterexample :
    readlineDiverges [80, 54] ∧ pyReadline [80, 54] = none := by
  refine ⟨⟨by decide, fun fuel => ?_⟩, pyReadline_diverge _ (by decide) (by decide)⟩
  simp only [List.head?_cons, List.tail_cons]
  exact rlLoop_eq_none_of_no_newline fuel (some 80) [54] [] (by decide) (by decide)
